import Mathlib

/-!
Shallow embedding of the AutoMBS suggestion/evidence engine
(`src/frontend/src/AutoMBSApp.tsx`): the evidence locator
(`findEvidenceSpans`), the heuristic rule catalog (`MOCK_RULES`), the
suggestion engine (`mockSuggest`) with its conflict pass and coverage
block, and the note-highlighting compositor (`HighlightedNote`).

Strings are modelled as `List Char` (JS strings are sequences of UTF-16
code units; all data handled here is ASCII).  JS `toLowerCase` is
modelled as the character-wise `Char.toLower`, which is
length-preserving and agrees with JS on ASCII.  Numbers used by the
engine are either lengths/offsets (`Nat`) or the fixed confidence
constants (`ℚ`, never computed with).
-/

abbrev Str := List Char

/-- Case-lowering of a string, character by character (JS `toLowerCase`
on ASCII data). -/
def lowerL (s : Str) : Str := s.map Char.toLower

/-- JS `hay.slice(a, b)` for natural indices: the characters from
position `a` (inclusive) to `b` (exclusive), clamped to the string. -/
def sliceL (l : Str) (a b : Nat) : Str := (l.drop a).take (b - a)

/-- JS `hay.indexOf(pat)`: the least index at which `pat` occurs as a
contiguous substring of `hay`, or `none`.  Like JS, the empty pattern
matches at index 0. -/
def jsIndexOf : Str → Str → Option Nat
  | [], pat => if pat.isEmpty then some 0 else none
  | c :: t, pat =>
    if pat.isPrefixOf (c :: t) then some 0
    else (jsIndexOf t pat).map (· + 1)

/-- JS `s.startsWith(p)`. -/
def jsStartsWith (s p : Str) : Bool := p.isPrefixOf s

/-- Case-insensitive substring test: regex `/pat/i.test(s)` for a
literal (alternation-free) pattern `pat`. -/
def containsCI (s pat : Str) : Bool := (jsIndexOf (lowerL s) (lowerL pat)).isSome

/-- JS regex word character `\w`, i.e. `[A-Za-z0-9_]`. -/
def isWordChar (c : Char) : Bool := c.isAlphanum || c == '_'

/-- Whether `tok` occurs at index `i` of `s` with a word boundary
(`\b`) on each side. -/
def tokenAt (s tok : Str) (i : Nat) : Bool :=
  tok.isPrefixOf (s.drop i) &&
  (match i with
   | 0 => true
   | j + 1 =>
     match s.get? j with
     | some c => !(isWordChar c)
     | none => true) &&
  (match s.get? (i + tok.length) with
   | some c => !(isWordChar c)
   | none => true)

/-- Regex `\btok\b` existence test: `tok` occurs somewhere in `s` as a
standalone word-bounded token. -/
def hasWordToken (s tok : Str) : Bool :=
  (List.range (s.length + 1)).any (fun i => tokenAt s tok i)

-- ----------------------------- Types ---------------------------------

/-- TS `Attachment`: `{ name, type, content }`. -/
structure Attachment where
  name : Str
  type : Str
  content : Str
deriving DecidableEq, Repr

/-- TS `EvidenceSpan`: `{ text, start, end, field }` (`end` is a Lean
keyword, rendered `end_`). -/
structure EvidenceSpan where
  text : Str
  start : Nat
  end_ : Nat
  field : Str
deriving DecidableEq, Repr

/-- TS `Suggestion`. `confidence` carries the catalog's fixed decimal
constants. Optional TS fields are `Option`s defaulting to `none`. -/
structure Suggestion where
  item : Str
  description : Str
  confidence : ℚ
  reasoning : Str
  evidence : List EvidenceSpan
  conflicts : Option (List Str) := none
  allowedWith : Option (List Str) := none
  warnings : Option (List Str) := none
deriving DecidableEq, Repr

/-- TS `CoverageBlock`. -/
structure CoverageBlock where
  eligible_suggested : Nat
  eligible_total : Nat
  missed : List Str
deriving DecidableEq, Repr

/-- TS `AccuracyBlock`. -/
structure AccuracyBlock where
  correct : Option Nat := none
  incorrect : Option Nat := none
deriving DecidableEq, Repr

/-- The `meta` object of `ApiSuggestionResponse`. -/
structure MetaBlock where
  prompt_version : Option Str := none
  rule_version : Option Str := none
  model : Option Str := none
deriving DecidableEq, Repr

/-- The `raw_debug` payload `mockSuggest` attaches. -/
structure RawDebug where
  matched_rules : List Str
  attachment_names : Option (List Str)
deriving DecidableEq, Repr

/-- TS `ApiSuggestionResponse`. -/
structure ApiSuggestionResponse where
  suggestions : List Suggestion
  coverage : Option CoverageBlock := none
  accuracy : Option AccuracyBlock := none
  meta : Option MetaBlock := none
  raw_debug : Option RawDebug := none
deriving DecidableEq, Repr

-- --------------------------- EvidenceLocator --------------------------

/-- `findEvidenceSpans(text, needles)`: for each needle in order, a
case-insensitive `indexOf` into `text`; on a hit, push a span holding
the original-cased slice at the match. -/
def findEvidenceSpans (text : Str) : List Str → List EvidenceSpan
  | [] => []
  | n :: rest =>
    (match jsIndexOf (lowerL text) (lowerL n) with
     | some idx =>
       [{ text := sliceL text idx (idx + n.length), start := idx,
          end_ := idx + n.length, field := "noteText".toList }]
     | none => []) ++ findEvidenceSpans text rest

-- --------------------------- Rule catalog -----------------------------

/-- One entry of `MOCK_RULES`: `{ test, build }`. -/
structure MockRule where
  test : Str → Bool
  build : Str → Suggestion

/-- The `MOCK_RULES` catalog of `mockSuggest`, in source order. -/
def MOCK_RULES : List MockRule :=
  [ { test := fun s => containsCI s "telehealth".toList || containsCI s "video".toList ||
        containsCI s "phone".toList,
      build := fun s =>
        { item := if hasWordToken s "20".toList || hasWordToken s "25".toList ||
              hasWordToken s "30".toList then "91836".toList else "91823".toList,
          description := "Telehealth attendance by a GP (Level B-C)".toList,
          confidence := 0.78,
          reasoning := "Telehealth modality and consult length suggests Level B/C telehealth.".toList,
          evidence := findEvidenceSpans s
            ["Telehealth".toList, "video".toList, "phone".toList, "mins".toList],
          warnings := some ["Confirm patient location and telehealth eligibility.".toList] } },
    { test := fun s => containsCI s "suturing".toList || containsCI s "laceration".toList ||
        containsCI s "wound".toList,
      build := fun s =>
        { item := "30026".toList,
          description := "Repair of superficial laceration (suturing)".toList,
          confidence := 0.82,
          reasoning := "Simple suturing with local anaesthetic documented.".toList,
          evidence := findEvidenceSpans s
            ["laceration".toList, "suturing".toList, "local anaesthetic".toList, "nylon".toList],
          warnings := some ["Ensure length/complexity meet descriptor; same-site rules apply.".toList] } },
    { test := fun s => containsCI s "ecg".toList,
      build := fun s =>
        { item := "11700".toList,
          description := "Electrocardiogram tracing and report".toList,
          confidence := 0.74,
          reasoning := "ECG performed and interpreted.".toList,
          evidence := findEvidenceSpans s
            ["ECG".toList, "sinus rhythm".toList, "palpitations".toList] } },
    { test := fun s => containsCI s "throat swab".toList || containsCI s "FBC".toList ||
        containsCI s "CRP".toList || containsCI s "pathology".toList ||
        containsCI s "culture".toList,
      build := fun s =>
        { item := "65111".toList,
          description := "Pathology test request (example placeholder)".toList,
          confidence := 0.65,
          reasoning := "Pathology orders present (throat swab, FBC/CRP).".toList,
          evidence := findEvidenceSpans s
            ["throat swab".toList, "FBC".toList, "CRP".toList, "culture".toList] } },
    { test := fun s => containsCI s "x-ray".toList || containsCI s "imaging".toList ||
        containsCI s "report".toList,
      build := fun s =>
        { item := "58503".toList,
          description := "Diagnostic imaging service (example)".toList,
          confidence := 0.7,
          reasoning := "Imaging performed and report available.".toList,
          evidence := findEvidenceSpans s
            ["X-ray".toList, "imaging".toList, "report".toList] } },
    { test := fun s => containsCI s "consult".toList || containsCI s "in-person".toList ||
        containsCI s "mins".toList || containsCI s "review".toList ||
        containsCI s "time".toList || containsCI s "history".toList ||
        containsCI s "exam".toList,
      build := fun s =>
        { item := if hasWordToken s "25".toList || hasWordToken s "30".toList
            then "36".toList else "23".toList,
          description := "GP attendance (Level B/C)".toList,
          confidence := 0.68,
          reasoning := "Consultation documented with history/exam and time noted.".toList,
          evidence := findEvidenceSpans s
            ["consult".toList, "in-person".toList, "mins".toList, "review".toList,
             "history".toList, "exam".toList, "time".toList] } } ]

-- --------------------------- SuggestionEngine -------------------------

/-- The scanned text of `mockSuggest`: note text and each text-typed
attachment (prefixed by a newline), joined with newlines. -/
def scannedText (noteText : Str) (attachments : Option (List Attachment)) : Str :=
  List.intercalate ['\n']
    (noteText ::
      ((attachments.getD []).filter (fun a => jsStartsWith a.type "text".toList)).map
        (fun a => '\n' :: a.content))

/-- The matching pass of `mockSuggest`: build a suggestion for every
rule whose test fires, in catalog order. -/
def ruleHits (text : Str) : List Suggestion :=
  (MOCK_RULES.filter (fun r => r.test text)).map (fun r => r.build text)

/-- The conflict pass of `mockSuggest`: when both item "23" and item
"36" are present, each gets the other's code in `conflicts`. -/
def applyConflictPass (hits : List Suggestion) : List Suggestion :=
  if hits.any (fun h => h.item == "23".toList) && hits.any (fun h => h.item == "36".toList) then
    hits.map (fun h =>
      if h.item == "23".toList then { h with conflicts := some ["36".toList] }
      else if h.item == "36".toList then { h with conflicts := some ["23".toList] }
      else h)
  else hits

/-- The fixed example pool the coverage block draws `missed` labels
from. -/
def missedExamplePool : List Str :=
  ["(example) spirometry".toList, "(example) care plan".toList]

/-- The coverage block `mockSuggest` assembles from the hit list. -/
def coverageBlockOf (hits : List Suggestion) : CoverageBlock :=
  { eligible_suggested := hits.length,
    eligible_total := max hits.length 3,
    missed := if hits.length ≥ 3 then [] else missedExamplePool.take (3 - hits.length) }

/-- `mockSuggest(noteText, attachments)`: the local heuristic engine. -/
def mockSuggest (noteText : Str) (attachments : Option (List Attachment)) :
    ApiSuggestionResponse :=
  let text := scannedText noteText attachments
  let hits := applyConflictPass (ruleHits text)
  { suggestions := hits,
    coverage := some (coverageBlockOf hits),
    accuracy := none,
    meta := some { prompt_version := some "v-mock-1".toList,
                   rule_version := some "mock-2025-07".toList,
                   model := some "mock".toList },
    raw_debug := some { matched_rules := hits.map (fun h => h.item),
                        attachment_names := attachments.map (fun l => l.map (fun a => a.name)) } }

-- --------------------------- EvidenceCompositor -----------------------

/-- One rendered part of the highlighted note: `{ str, mark }`. -/
structure Segment where
  str : Str
  mark : Bool
deriving DecidableEq, Repr

/-- The stable ascending sort by `start` that `HighlightedNote` applies
(`[...spans].sort((a, b) => a.start - b.start)`). -/
def sortSpans (spans : List EvidenceSpan) : List EvidenceSpan :=
  List.insertionSort (fun a b => a.start ≤ b.start) spans

/-- The left-to-right sweep of `HighlightedNote`: cursor `i`, a plain
segment up to each span's start when the span starts past the cursor, a
highlighted segment for the span, and a trailing plain segment. -/
def partsSweep (text : Str) : List EvidenceSpan → Nat → List Segment
  | [], i => if i < text.length then [{ str := text.drop i, mark := false }] else []
  | sp :: rest, i =>
    (if sp.start > i then [{ str := sliceL text i sp.start, mark := false }] else []) ++
      ({ str := sliceL text sp.start (min sp.end_ text.length), mark := true } ::
        partsSweep text rest sp.end_)

/-- The segment list `HighlightedNote` renders: the whole note as one
plain segment when highlighting is off or no spans exist, otherwise the
sweep over the spans sorted by start. -/
def highlightedNoteParts (text : Str) (spans : List EvidenceSpan) (show_ : Bool) :
    List Segment :=
  if !show_ || spans.isEmpty then [{ str := text, mark := false }]
  else partsSweep text (sortSpans spans) 0

/-- Concatenation of the rendered segments' texts, in order. -/
def segmentsText (segs : List Segment) : Str := (segs.map (fun g => g.str)).flatten

-- ------------------------- String-search lemmas -----------------------

/-- `List.isPrefixOf` agrees with the `<+:` relation. -/
lemma isPrefixOf_iff (p s : Str) : p.isPrefixOf s = true ↔ p <+: s := by
  induction p generalizing s with
  | nil =>
    constructor
    · intro _; exact ⟨s, rfl⟩
    · intro _; cases s <;> rfl
  | cons a p ih =>
    cases s with
    | nil =>
      constructor
      · intro h; simp [List.isPrefixOf] at h
      · rintro ⟨t, ht⟩; simp at ht
    | cons b s =>
      simp only [List.isPrefixOf, Bool.and_eq_true, beq_iff_eq, ih]
      constructor
      · rintro ⟨rfl, t, rfl⟩; exact ⟨t, rfl⟩
      · rintro ⟨t, ht⟩
        injection ht with h1 h2
        exact ⟨h1, t, h2⟩

/-- A successful `jsIndexOf` really is an occurrence. -/
lemma jsIndexOf_some_occurs :
    ∀ {hay : Str} {pat : Str} {i : Nat}, jsIndexOf hay pat = some i → pat <+: hay.drop i := by
  intro hay
  induction hay with
  | nil =>
    intro pat i h
    simp only [jsIndexOf] at h
    split at h
    · injection h with h'
      subst h'
      rename_i hemp
      have hp : pat = [] := List.isEmpty_iff.mp hemp
      subst hp
      exact ⟨[], rfl⟩
    · exact absurd h (by simp)
  | cons c t ih =>
    intro pat i h
    simp only [jsIndexOf] at h
    split at h
    · injection h with h'
      subst h'
      rename_i hp
      simpa using (isPrefixOf_iff pat (c :: t)).mp hp
    · rw [Option.map_eq_some'] at h
      obtain ⟨i', hi', rfl⟩ := h
      simpa using ih hi'

/-- `jsIndexOf` finds the least occurrence. -/
lemma jsIndexOf_some_minimal :
    ∀ {hay : Str} {pat : Str} {i : Nat}, jsIndexOf hay pat = some i →
      ∀ j, pat <+: hay.drop j → i ≤ j := by
  intro hay
  induction hay with
  | nil =>
    intro pat i h j _
    simp only [jsIndexOf] at h
    split at h
    · injection h with h'
      omega
    · exact absurd h (by simp)
  | cons c t ih =>
    intro pat i h j hj
    simp only [jsIndexOf] at h
    split at h
    · injection h with h'
      omega
    · rw [Option.map_eq_some'] at h
      obtain ⟨i', hi', rfl⟩ := h
      rename_i hnp
      cases j with
      | zero =>
        simp only [List.drop_zero] at hj
        exact absurd ((isPrefixOf_iff pat (c :: t)).mpr hj) (by simpa using hnp)
      | succ k =>
        have := ih hi' k (by simpa using hj)
        omega

/-- `jsIndexOf` never reports an index past the end of the haystack. -/
lemma jsIndexOf_le_length :
    ∀ {hay : Str} {pat : Str} {i : Nat}, jsIndexOf hay pat = some i → i ≤ hay.length := by
  intro hay
  induction hay with
  | nil =>
    intro pat i h
    simp only [jsIndexOf] at h
    split at h
    · injection h with h'
      omega
    · exact absurd h (by simp)
  | cons c t ih =>
    intro pat i h
    simp only [jsIndexOf] at h
    split at h
    · injection h with h'
      omega
    · rw [Option.map_eq_some'] at h
      obtain ⟨i', hi', rfl⟩ := h
      have := ih hi'
      simp only [List.length_cons]
      omega

/-- If an occurrence exists anywhere, `jsIndexOf` succeeds. -/
lemma jsIndexOf_isSome_of_occurs :
    ∀ {hay : Str} {pat : Str} {i : Nat}, pat <+: hay.drop i → (jsIndexOf hay pat).isSome := by
  intro hay
  induction hay with
  | nil =>
    intro pat i h
    have hp : pat = [] := by
      obtain ⟨t, ht⟩ := h
      simp only [List.drop_nil] at ht
      exact (List.append_eq_nil.mp ht).1
    simp [jsIndexOf, hp]
  | cons c t ih =>
    intro pat i h
    simp only [jsIndexOf]
    split
    · rfl
    · cases i with
      | zero =>
        rename_i hnp
        simp only [List.drop_zero] at h
        exact absurd ((isPrefixOf_iff pat (c :: t)).mpr h) (by simpa using hnp)
      | succ k =>
        have := ih (i := k) (by simpa using h)
        simpa using this

/-- `pat` occurs (as a contiguous substring) at index `i` of `s`. -/
def occursAt (pat s : Str) (i : Nat) : Prop := pat <+: s.drop i

-- ----------------------- EvidenceCompositor lemmas --------------------

lemma segmentsText_nil : segmentsText [] = [] := rfl

lemma segmentsText_cons (g : Segment) (segs : List Segment) :
    segmentsText (g :: segs) = g.str ++ segmentsText segs := by
  simp [segmentsText]

lemma segmentsText_append (a b : List Segment) :
    segmentsText (a ++ b) = segmentsText a ++ segmentsText b := by
  simp [segmentsText]

/-- Splitting a suffix of a list at a further position `b ≥ a`. -/
lemma drop_eq_slice_append (l : Str) (a b : Nat) (hab : a ≤ b) :
    l.drop a = sliceL l a b ++ l.drop b := by
  have h : l.drop b = (l.drop a).drop (b - a) := by
    rw [List.drop_drop]
    congr 1
    omega
  rw [h, sliceL, List.take_append_drop]

/-- The highlighting sweep reproduces the tail of the note from the
cursor on, provided the spans are in-bounds, start at or after the
cursor, and are chained without overlap. -/
lemma partsSweep_text (text : Str) :
    ∀ (spans : List EvidenceSpan) (i : Nat),
      (∀ sp ∈ spans, sp.start ≤ sp.end_ ∧ sp.end_ ≤ text.length) →
      List.Chain' (fun a b => a.end_ ≤ b.start) spans →
      (∀ sp ∈ spans.head?, i ≤ sp.start) →
      segmentsText (partsSweep text spans i) = text.drop i := by
  intro spans
  induction spans with
  | nil =>
    intro i _ _ _
    simp only [partsSweep]
    split
    · simp [segmentsText]
    · rename_i hlt
      rw [segmentsText_nil]
      exact (List.drop_eq_nil_of_le (by omega)).symm
  | cons sp rest ih =>
    intro i hb hc hfirst
    have hsp := hb sp (List.mem_cons_self sp rest)
    have hi : i ≤ sp.start := hfirst sp rfl
    have hmin : min sp.end_ text.length = sp.end_ := Nat.min_eq_left hsp.2
    have hrest_b : ∀ s ∈ rest, s.start ≤ s.end_ ∧ s.end_ ≤ text.length :=
      fun s hs => hb s (List.mem_cons_of_mem sp hs)
    have hrest_first : ∀ s ∈ rest.head?, sp.end_ ≤ s.start := by
      cases rest with
      | nil => intro s hs; exact absurd hs (by simp)
      | cons b tl =>
        intro s hs
        have hbs : b = s := by simpa using hs
        subst hbs
        exact (List.chain'_cons.mp hc).1
    have ihr := ih sp.end_ hrest_b hc.tail hrest_first
    simp only [partsSweep]
    rw [segmentsText_append, segmentsText_cons, ihr, hmin]
    have hkey : text.drop sp.start = sliceL text sp.start sp.end_ ++ text.drop sp.end_ :=
      drop_eq_slice_append text sp.start sp.end_ hsp.1
    by_cases hlt : sp.start > i
    · rw [if_pos hlt, segmentsText_cons, segmentsText_nil, List.append_nil]
      rw [← hkey]
      exact (drop_eq_slice_append text i sp.start hlt.le).symm
    · rw [if_neg hlt, segmentsText_nil, List.nil_append]
      have hie : i = sp.start := by omega
      rw [hie, ← hkey]

-- ------------------------- Claims C4, C5, C6 --------------------------

/-- C4 counterexample: the claim says an empty needle never matches, but
`findEvidenceSpans` on an empty needle emits a span (JS `indexOf` of
the empty string is 0). -/
theorem c4_counterexample : findEvidenceSpans "a".toList [([] : Str)] ≠ [] := by decide

/-- C4 (amended): on an empty needle `findEvidenceSpans` emits a
degenerate span at offset 0 with empty text (JS `indexOf("")` is `0`);
as a total function it never raises. -/
theorem c4_empty_needle (text : Str) :
    findEvidenceSpans text [([] : Str)] =
      [{ text := [], start := 0, end_ := 0, field := "noteText".toList }] := by
  have h0 : jsIndexOf (lowerL text) (lowerL []) = some 0 := by
    cases text with
    | nil => rfl
    | cons c t => rfl
  simp [findEvidenceSpans, h0, sliceL]

/-- C5 counterexample: the empty-needle span has `start = end`, so the
strict invariant `start < end` claimed for every emitted span fails. -/
theorem c5_counterexample :
    ¬ (∀ sp ∈ findEvidenceSpans "ab".toList [([] : Str)], sp.start < sp.end_) := by decide

/-- C5 (amended): every span emitted by `findEvidenceSpans` satisfies
`0 ≤ start ≤ end ≤ length text` and its `text` is the slice of the
source text from `start` to `end` (strictness `start < end` fails only
for the empty needle). -/
theorem c5_span_invariant (text : Str) (needles : List Str) :
    ∀ sp ∈ findEvidenceSpans text needles,
      sp.start ≤ sp.end_ ∧ sp.end_ ≤ text.length ∧ sp.text = sliceL text sp.start sp.end_ := by
  induction needles with
  | nil => intro sp hsp; exact absurd hsp (by simp [findEvidenceSpans])
  | cons n rest ih =>
    intro sp hsp
    rw [findEvidenceSpans, List.mem_append] at hsp
    rcases hsp with h | h
    · revert h
      cases hidx : jsIndexOf (lowerL text) (lowerL n) with
      | none => intro h; exact absurd h (by simp)
      | some idx =>
        intro h
        have hsp' : sp = { text := sliceL text idx (idx + n.length), start := idx,
                           end_ := idx + n.length, field := "noteText".toList } := by
          simpa using h
        subst hsp'
        refine ⟨Nat.le_add_right _ _, ?_, rfl⟩
        show idx + n.length ≤ text.length
        have hocc := jsIndexOf_some_occurs hidx
        have hlen := hocc.length_le
        have hle := jsIndexOf_le_length hidx
        simp only [List.length_drop, lowerL, List.length_map] at hlen hle
        omega
    · exact ih sp h

/-- C5 witness: the invariant instantiated at the needle `"b"` inside
`"ab"`, whose located span is `(1, 2)`. -/
theorem c5_witness :
    (1 : Nat) ≤ 2 ∧ (2 : Nat) ≤ ("ab".toList).length ∧ ['b'] = sliceL "ab".toList 1 2 :=
  c5_span_invariant "ab".toList [['b']]
    { text := ['b'], start := 1, end_ := 2, field := "noteText".toList } (by decide)

/-- C6: for a single needle, `findEvidenceSpans` returns exactly one
span at the first case-insensitive occurrence — original-cased slice,
lowercased text equal to the lowercased needle — whenever the
lowercased needle occurs in the lowercased text, and returns the empty
list otherwise. -/
theorem c6_locate_single (text needle : Str) :
    ((∃ i, occursAt (lowerL needle) (lowerL text) i) →
      ∃ i, findEvidenceSpans text [needle] =
          [{ text := sliceL text i (i + needle.length), start := i,
             end_ := i + needle.length, field := "noteText".toList }] ∧
        occursAt (lowerL needle) (lowerL text) i ∧
        (∀ j, occursAt (lowerL needle) (lowerL text) j → i ≤ j) ∧
        lowerL (sliceL text i (i + needle.length)) = lowerL needle) ∧
    ((¬ ∃ i, occursAt (lowerL needle) (lowerL text) i) →
      findEvidenceSpans text [needle] = []) := by
  constructor
  · rintro ⟨i0, hi0⟩
    have hs : (jsIndexOf (lowerL text) (lowerL needle)).isSome :=
      jsIndexOf_isSome_of_occurs hi0
    obtain ⟨i, hi⟩ := Option.isSome_iff_exists.mp hs
    have hocc := jsIndexOf_some_occurs hi
    refine ⟨i, by simp [findEvidenceSpans, hi], hocc, fun j hj => jsIndexOf_some_minimal hi j hj, ?_⟩
    have hmaps : lowerL (sliceL text i (i + needle.length)) =
        sliceL (lowerL text) i (i + needle.length) := by
      simp [lowerL, sliceL, List.map_take, List.map_drop]
    rw [hmaps, sliceL, Nat.add_sub_cancel_left]
    obtain ⟨t, ht⟩ := hocc
    rw [← ht]
    have hlen : needle.length = (lowerL needle).length := by simp [lowerL]
    rw [hlen, List.take_left]
  · intro hno
    cases hcase : jsIndexOf (lowerL text) (lowerL needle) with
    | none => simp [findEvidenceSpans, hcase]
    | some i => exact absurd ⟨i, jsIndexOf_some_occurs hcase⟩ hno

/-- C6 witness: the found branch at text `"Video call"` with needle
`"video"` (match at 0, original casing kept), and the not-found branch
at text `"a"` with needle `"zz"`. -/
theorem c6_witness :
    (∃ i, findEvidenceSpans "Video call".toList ["video".toList] =
        [{ text := sliceL "Video call".toList i (i + "video".toList.length), start := i,
           end_ := i + "video".toList.length, field := "noteText".toList }] ∧
      occursAt (lowerL "video".toList) (lowerL "Video call".toList) i ∧
      (∀ j, occursAt (lowerL "video".toList) (lowerL "Video call".toList) j → i ≤ j) ∧
      lowerL (sliceL "Video call".toList i (i + "video".toList.length)) =
        lowerL "video".toList) ∧
    findEvidenceSpans "a".toList ["zz".toList] = [] := by
  constructor
  · exact (c6_locate_single "Video call".toList "video".toList).1
      ⟨0, ⟨" call".toList, by decide⟩⟩
  · refine (c6_locate_single "a".toList "zz".toList).2 ?_
    rintro ⟨i, hi⟩
    have hlen := hi.length_le
    rw [List.length_drop] at hlen
    have h2 : (lowerL "zz".toList).length = 2 := by decide
    have h1 : (lowerL "a".toList).length = 1 := by decide
    omega

-- ----------------------------- Claim C3 -------------------------------

/-- C3 counterexample: two in-bounds but overlapping spans on `"abcd"`
make the sweep re-emit the overlap (`"abbcd"`), so concatenation does
not reproduce the note text for arbitrary in-bounds spans. -/
theorem c3_counterexample :
    segmentsText (highlightedNoteParts "abcd".toList
        [{ text := "ab".toList, start := 0, end_ := 2, field := "noteText".toList },
         { text := "bc".toList, start := 1, end_ := 3, field := "noteText".toList }] true) ≠
      "abcd".toList := by decide

/-- C3 (amended): concatenating the `str` fields of the segments of
`highlightedNoteParts`, in order, reproduces the note text exactly,
provided every span is in-bounds with `start ≤ end` and the spans,
once stably sorted by start, do not overlap (each span ends at or
before the next one starts). -/
theorem c3_compose_concat (text : Str) (spans : List EvidenceSpan) (show_ : Bool)
    (hb : ∀ sp ∈ spans, sp.start ≤ sp.end_ ∧ sp.end_ ≤ text.length)
    (hchain : List.Chain' (fun a b => a.end_ ≤ b.start) (sortSpans spans)) :
    segmentsText (highlightedNoteParts text spans show_) = text := by
  rw [highlightedNoteParts]
  split
  · simp [segmentsText]
  · have hb' : ∀ sp ∈ sortSpans spans, sp.start ≤ sp.end_ ∧ sp.end_ ≤ text.length := by
      intro sp hsp
      rw [sortSpans, List.mem_insertionSort] at hsp
      exact hb sp hsp
    have h := partsSweep_text text (sortSpans spans) 0 hb' hchain (fun sp _ => Nat.zero_le _)
    rw [h, List.drop_zero]

/-- C3 witness: two disjoint in-bounds spans on `"abcd"`; the composed
segments concatenate back to `"abcd"`. -/
theorem c3_witness :
    segmentsText (highlightedNoteParts "abcd".toList
        [{ text := "d".toList, start := 3, end_ := 4, field := "noteText".toList },
         { text := "ab".toList, start := 0, end_ := 2, field := "noteText".toList }] true) =
      "abcd".toList :=
  c3_compose_concat "abcd".toList
    [{ text := "d".toList, start := 3, end_ := 4, field := "noteText".toList },
     { text := "ab".toList, start := 0, end_ := 2, field := "noteText".toList }] true
    (by decide)
    (by
      have hs : sortSpans
          [{ text := "d".toList, start := 3, end_ := 4, field := "noteText".toList },
           { text := "ab".toList, start := 0, end_ := 2, field := "noteText".toList }] =
          [{ text := "ab".toList, start := 0, end_ := 2, field := "noteText".toList },
           { text := "d".toList, start := 3, end_ := 4, field := "noteText".toList }] := by
        decide
      rw [hs]
      exact List.chain'_cons.mpr ⟨by decide, List.chain'_singleton _⟩)

-- ------------------------ SuggestionEngine lemmas ---------------------

/-- Every hit comes from some catalog rule whose test fired. -/
lemma mem_ruleHits {text : Str} {s : Suggestion} (h : s ∈ ruleHits text) :
    ∃ r ∈ MOCK_RULES, r.test text = true ∧ s = r.build text := by
  simp only [ruleHits, List.mem_map, List.mem_filter] at h
  obtain ⟨r, ⟨hr, ht⟩, hs⟩ := h
  exact ⟨r, hr, ht, hs.symm⟩

/-- No builder in the catalog ever sets `conflicts`. -/
lemma ruleHits_conflicts_none {text : Str} {s : Suggestion} (h : s ∈ ruleHits text) :
    s.conflicts = none := by
  obtain ⟨r, hr, _, rfl⟩ := mem_ruleHits h
  simp only [MOCK_RULES, List.mem_cons, List.not_mem_nil, or_false] at hr
  rcases hr with rfl | rfl | rfl | rfl | rfl | rfl <;> rfl

/-- The consult rule is the only source of items "23" and "36", and its
single invocation yields one of the two, so a hit list never carries
both. -/
lemma ruleHits_not_both (text : Str) :
    ¬ ((∃ s ∈ ruleHits text, s.item = "23".toList) ∧
       (∃ s ∈ ruleHits text, s.item = "36".toList)) := by
  rintro ⟨⟨s1, hs1, hi1⟩, ⟨s2, hs2, hi2⟩⟩
  obtain ⟨r1, hr1, _, rfl⟩ := mem_ruleHits hs1
  obtain ⟨r2, hr2, _, rfl⟩ := mem_ruleHits hs2
  simp only [MOCK_RULES, List.mem_cons, List.not_mem_nil, or_false] at hr1 hr2
  rcases hr1 with rfl | rfl | rfl | rfl | rfl | rfl <;>
    rcases hr2 with rfl | rfl | rfl | rfl | rfl | rfl <;>
    dsimp only at hi1 hi2 <;>
    first
      | exact absurd (hi1.symm.trans hi2) (by decide)
      | exact absurd hi1 (by decide)
      | exact absurd hi2 (by decide)
      | (split at hi1 <;> exact absurd hi1 (by decide))
      | (split at hi2 <;> exact absurd hi2 (by decide))

/-- Because no hit list ever holds both tier codes, the conflict pass
of `mockSuggest` is the identity on rule hits. -/
lemma applyConflictPass_ruleHits (text : Str) :
    applyConflictPass (ruleHits text) = ruleHits text := by
  unfold applyConflictPass
  split
  · rename_i hcond
    rw [Bool.and_eq_true, List.any_eq_true, List.any_eq_true] at hcond
    obtain ⟨⟨s1, hs1, hi1⟩, ⟨s2, hs2, hi2⟩⟩ := hcond
    rw [beq_iff_eq] at hi1 hi2
    exact absurd ⟨⟨s1, hs1, hi1⟩, ⟨s2, hs2, hi2⟩⟩ (ruleHits_not_both text)
  · rfl

/-- The suggestions of `mockSuggest` are exactly the rule hits on the
scanned text. -/
lemma mockSuggest_suggestions (n : Str) (a : Option (List Attachment)) :
    (mockSuggest n a).suggestions = ruleHits (scannedText n a) := by
  show applyConflictPass (ruleHits (scannedText n a)) = ruleHits (scannedText n a)
  exact applyConflictPass_ruleHits _

-- ------------------------- Claims C1 and C2 ---------------------------

/-- The note text of end-to-end scenario A. -/
def c1NoteText : Str := "Telehealth 18 mins via video.".toList

/-- C1 counterexample: on scenario A's note the engine yields two
suggestions, not one — the consult rule also fires because its trigger
alternation contains "mins". -/
theorem c1_counterexample : (mockSuggest c1NoteText none).suggestions.length ≠ 1 := by decide

/-- C1 (amended): on the note `"Telehealth 18 mins via video."` with no
attachments, `mockSuggest` yields exactly two suggestions: the first
with item "91823" (no standalone 20/25/30 token) whose evidence holds
the located spans for "Telehealth", "video" and "mins", and the second,
from the consult rule (triggered by "mins"), with item "23". -/
theorem c1_telehealth_scenario :
    (mockSuggest c1NoteText none).suggestions.map (fun s => s.item) =
      ["91823".toList, "23".toList] ∧
    ((mockSuggest c1NoteText none).suggestions.head?.map (fun s => s.evidence)) =
      some [{ text := "Telehealth".toList, start := 0, end_ := 10, field := "noteText".toList },
            { text := "video".toList, start := 23, end_ := 28, field := "noteText".toList },
            { text := "mins".toList, start := 14, end_ := 18, field := "noteText".toList }] := by
  decide

/-- C2 counterexample: with zero suggestions the `missed` list has
length 2, not 3 — the fixed example pool only holds two labels. -/
theorem c2_counterexample : (coverageBlockOf []).missed.length ≠ 3 := by decide

/-- C2 (amended): with 0 suggestions the coverage block has
`eligible_total = 3` and `missed` equal to the whole fixed example pool
(two labels, in pool order); with 4 suggestions it has
`eligible_total = 4` and `missed = []`. -/
theorem c2_coverage_estimate (hits : List Suggestion) :
    (hits.length = 0 →
      (coverageBlockOf hits).eligible_total = 3 ∧
      (coverageBlockOf hits).missed = missedExamplePool ∧
      (coverageBlockOf hits).missed.length = 2) ∧
    (hits.length = 4 →
      (coverageBlockOf hits).eligible_total = 4 ∧ (coverageBlockOf hits).missed = []) := by
  constructor
  · intro h
    rw [List.length_eq_zero] at h
    subst h
    decide
  · intro h
    simp [coverageBlockOf, h, missedExamplePool]

/-- A four-element suggestion list, for exercising the coverage
estimate above the expected minimum. -/
def fourSuggestions : List Suggestion :=
  List.replicate 4
    { item := "x".toList, description := [], confidence := 0, reasoning := [], evidence := [] }

/-- C2 witness: the amended coverage estimate at the empty hit list and
at a four-element hit list. -/
theorem c2_witness :
    ((coverageBlockOf []).eligible_total = 3 ∧
      (coverageBlockOf []).missed = missedExamplePool ∧
      (coverageBlockOf []).missed.length = 2) ∧
    ((coverageBlockOf fourSuggestions).eligible_total = 4 ∧
      (coverageBlockOf fourSuggestions).missed = []) :=
  ⟨(c2_coverage_estimate []).1 rfl, (c2_coverage_estimate fourSuggestions).2 rfl⟩

-- ---------------------- Claims C7, C8, C9, C10 ------------------------

/-- C7: whenever both items "23" and "36" are present in the engine's
output, each carries the other's code in `conflicts`; whenever exactly
one of the two is present, its `conflicts` field is unset. -/
theorem c7_conflict_contract (n : Str) (a : Option (List Attachment)) :
    (((∃ s ∈ (mockSuggest n a).suggestions, s.item = "23".toList) ∧
      (∃ s ∈ (mockSuggest n a).suggestions, s.item = "36".toList)) →
      (∀ s ∈ (mockSuggest n a).suggestions,
        (s.item = "23".toList → s.conflicts = some ["36".toList]) ∧
        (s.item = "36".toList → s.conflicts = some ["23".toList]))) ∧
    ((((∃ s ∈ (mockSuggest n a).suggestions, s.item = "23".toList) ∧
        ¬ (∃ s ∈ (mockSuggest n a).suggestions, s.item = "36".toList)) ∨
      ((∃ s ∈ (mockSuggest n a).suggestions, s.item = "36".toList) ∧
        ¬ (∃ s ∈ (mockSuggest n a).suggestions, s.item = "23".toList))) →
      ∀ s ∈ (mockSuggest n a).suggestions,
        (s.item = "23".toList ∨ s.item = "36".toList) → s.conflicts = none) := by
  constructor
  · intro hboth
    rw [mockSuggest_suggestions] at hboth
    exact absurd hboth (ruleHits_not_both _)
  · intro _ s hs _
    rw [mockSuggest_suggestions] at hs
    exact ruleHits_conflicts_none hs

/-- C7 witness: on the note `"consult"` only item "23" appears, and its
`conflicts` field is unset. -/
theorem c7_witness :
    ∀ s ∈ (mockSuggest "consult".toList none).suggestions,
      (s.item = "23".toList ∨ s.item = "36".toList) → s.conflicts = none :=
  (c7_conflict_contract "consult".toList none).2 (Or.inl (by decide))

/-- C8: every response of the local heuristic engine carries a present
coverage block, a meta object with `rule_version` set, and a null
`accuracy` field (the `suggestions` list is total by construction). -/
theorem c8_response_shape (n : Str) (a : Option (List Attachment)) :
    (∃ cov, (mockSuggest n a).coverage = some cov) ∧
    (∃ m, (mockSuggest n a).meta = some m ∧ m.rule_version = some "mock-2025-07".toList) ∧
    (mockSuggest n a).accuracy = none :=
  ⟨⟨_, rfl⟩, ⟨_, rfl, rfl⟩, rfl⟩

/-- C9: `mockSuggest` is deterministic — two invocations on identical
document content (note text and attachments) yield identical output; in
this embedding it is a pure function of exactly these two inputs, with
no randomness, time, or other external state. -/
theorem c9_deterministic (n₁ : Str) (a₁ : Option (List Attachment))
    (n₂ : Str) (a₂ : Option (List Attachment)) (hn : n₁ = n₂) (ha : a₁ = a₂) :
    mockSuggest n₁ a₁ = mockSuggest n₂ a₂ := by
  subst hn
  subst ha
  rfl

/-- C9 witness: two invocations on scenario A's document agree. -/
theorem c9_witness :
    mockSuggest "Telehealth 18 mins via video.".toList none =
      mockSuggest "Telehealth 18 mins via video.".toList none :=
  c9_deterministic _ none _ none rfl rfl

/-- C10: the engine never returns both tier codes "23" and "36" (the
consult rule alone produces them and yields exactly one per
invocation), so the mutual-conflict branch is unreachable and every
returned suggestion has its `conflicts` field unset. -/
theorem c10_no_tier_pair (n : Str) (a : Option (List Attachment)) :
    (((mockSuggest n a).suggestions.any (fun s => s.item == "23".toList)) = false ∨
      ((mockSuggest n a).suggestions.any (fun s => s.item == "36".toList)) = false) ∧
    (mockSuggest n a).suggestions.all (fun s => s.conflicts == none) = true := by
  rw [mockSuggest_suggestions]
  constructor
  · cases h23 : (ruleHits (scannedText n a)).any (fun s => s.item == "23".toList) with
    | false => exact Or.inl rfl
    | true =>
      cases h36 : (ruleHits (scannedText n a)).any (fun s => s.item == "36".toList) with
      | false => exact Or.inr rfl
      | true =>
        exfalso
        rw [List.any_eq_true] at h23 h36
        obtain ⟨s1, hs1, hi1⟩ := h23
        obtain ⟨s2, hs2, hi2⟩ := h36
        rw [beq_iff_eq] at hi1 hi2
        exact ruleHits_not_both _ ⟨⟨s1, hs1, hi1⟩, ⟨s2, hs2, hi2⟩⟩
  · rw [List.all_eq_true]
    intro s hs
    exact beq_iff_eq.mpr (ruleHits_conflicts_none hs)
